import Mathlib

/-!
Verification development for the two-variable linear-optimization solver.

Shallow embedding of the linear-optimization core of the repository
(the functions solveLinearOptimization, parseLinearOptimizationProblem
and their helpers, found in the module embedded in
src/nextjs-calculator/src/app/api/solve/route.ts).  JavaScript numbers
are modelled as rationals; the numeric tolerance 1e-10 of the source is
kept verbatim as the rational 1 / 10 ^ 10.  Math.round is modelled as
the floor of q + 1/2 (round half toward positive infinity), and the
String.includes builtin as contiguous-substring occurrence.
-/

namespace LinOpt

/-- The relation of a constraint: le, ge or eq in the source union type. -/
inductive ConstraintType where
  | le
  | ge
  | eq
deriving DecidableEq

/-- The direction of the objective: maximize or minimize. -/
inductive ObjType where
  | maximize
  | minimize
deriving DecidableEq

/-- The source interface Constraint: the relation `a·x + b·y (≤|≥|=) c`. -/
structure Constraint where
  a : ℚ
  b : ℚ
  c : ℚ
  type : ConstraintType
deriving DecidableEq

/-- The objective record of the source interface LinearProgram. -/
structure Objective where
  a : ℚ
  b : ℚ
  type : ObjType
deriving DecidableEq

/-- The source interface LinearProgram.  The optional discrete field is
modelled as a Bool (absent = false). -/
structure LinearProgram where
  objective : Objective
  constraints : List Constraint
  varX : String
  varY : String
  discrete : Bool
deriving DecidableEq

/-- A candidate vertex, a pair of coordinates. -/
structure Point where
  x : ℚ
  y : ℚ
deriving DecidableEq

/-- The source interface Solution. -/
structure Solution where
  x : ℚ
  y : ℚ
  objectiveValue : ℚ
  feasible : Bool
  vertices : List Point
deriving DecidableEq

/-- The numeric tolerance `1e-10` used by `findIntersection` and `isFeasible`. -/
def tol : ℚ := 1 / 10 ^ 10

/-- Model of Math.round: round half toward positive infinity. -/
def jsRound (q : ℚ) : ℤ := ⌊q + 1 / 2⌋

/-- The source findIntersection: solve the 2×2 system by Cramer rule,
returning none when the determinant is below the 1e-10 tolerance. -/
def findIntersection (c1 c2 : Constraint) : Option Point :=
  let det := c1.a * c2.b - c1.b * c2.a
  if |det| < tol then none
  else some ⟨(c1.c * c2.b - c1.b * c2.c) / det, (c1.a * c2.c - c1.c * c2.a) / det⟩

/-- The source isFeasible: every constraint holds within the 1e-10
tolerance, and both coordinates are non-negative. -/
def isFeasible (p : Point) (cs : List Constraint) : Bool :=
  (cs.all fun c =>
    let v := c.a * p.x + c.b * p.y
    match c.type with
    | ConstraintType.le => decide (v ≤ c.c + tol)
    | ConstraintType.ge => decide (c.c - tol ≤ v)
    | ConstraintType.eq => decide (|v - c.c| ≤ tol)) &&
  decide (0 ≤ p.x) && decide (0 ≤ p.y)

/-- The source evaluateObjective. -/
def evaluateObjective (p : Point) (obj : Objective) : ℚ :=
  obj.a * p.x + obj.b * p.y

/-- The double loop (outer index i, inner index j = i+1 onward) collecting
the pairwise constraint intersections, in source order. -/
def pairIntersections : List Constraint → List Point
  | [] => []
  | c :: rest => (rest.filterMap fun d => findIntersection c d) ++ pairIntersections rest

/-- The candidate vertex list: the origin seed followed by the pairwise
intersections. -/
def candidateVertices (lp : LinearProgram) : List Point :=
  ⟨0, 0⟩ :: pairIntersections lp.constraints

/-- The `feasibleVertices` filter of `solveLinearOptimization`. -/
def feasibleCandidates (lp : LinearProgram) : List Point :=
  (candidateVertices lp).filter fun v => isFeasible v lp.constraints

/-- The strict-improvement test of both selection loops:
value > bestValue for maximize, value < bestValue for minimize. -/
def objBetter (ty : ObjType) (v best : ℚ) : Bool :=
  match ty with
  | ObjType.maximize => decide (best < v)
  | ObjType.minimize => decide (v < best)

/-- The common shape of the two selection loops of `solveLinearOptimization`:
fold over candidates, adopting a candidate when it passes the admission
test `adm` and strictly improves the tracked best value.  The vertex scan
uses the trivial admission test; the discrete neighborhood scan admits
only feasible points. -/
def argScan (ty : ObjType) (f : Point → ℚ) (adm : Point → Bool) :
    Point × ℚ → List Point → Point × ℚ
  | best, [] => best
  | best, p :: rest =>
    if adm p && objBetter ty (f p) best.2 then argScan ty f adm (p, f p) rest
    else argScan ty f adm best rest

/-- The offsets dx from -2 to 2 (outer loop) and dy likewise (inner loop). -/
def deltas : List ℚ := [-2, -1, 0, 1, 2]

/-- The 25 integer test points of the discrete repair pass:
`(max 0 (round (x+dx)), max 0 (round (y+dy)))`, `dx` outer, `dy` inner. -/
def neighborhoodPoints (p : Point) : List Point :=
  deltas.flatMap fun dx => deltas.map fun dy =>
    ⟨((max 0 (jsRound (p.x + dx)) : ℤ) : ℚ), ((max 0 (jsRound (p.y + dy)) : ℤ) : ℚ)⟩

/-- The vertex-selection loop of the source solveLinearOptimization:
best starts at the first feasible vertex and the loop runs over the whole
feasible list, adopting strict improvements. -/
def mainScan (lp : LinearProgram) (fh : Point) (ft : List Point) : Point × ℚ :=
  argScan lp.objective.type (fun p => evaluateObjective p lp.objective) (fun _ => true)
    (fh, evaluateObjective fh lp.objective) (fh :: ft)

/-- The discrete neighborhood-repair loop of the source
solveLinearOptimization: scan the 25 clamped integer points around the
continuous optimum, admitting only feasible ones. -/
def repairScan (lp : LinearProgram) (bw : Point × ℚ) : Point × ℚ :=
  argScan lp.objective.type (fun p => evaluateObjective p lp.objective)
    (fun p => isFeasible p lp.constraints) bw (neighborhoodPoints bw.1)

/-- The source solveLinearOptimization: graphical method with discrete repair. -/
def solveLinearOptimization (lp : LinearProgram) : Solution :=
  match feasibleCandidates lp with
  | [] => ⟨0, 0, 0, false, []⟩
  | fh :: ft =>
    let bw := mainScan lp fh ft
    let final :=
      if lp.discrete then
        let r : Point := ⟨((jsRound bw.1.x : ℤ) : ℚ), ((jsRound bw.1.y : ℤ) : ℚ)⟩
        if isFeasible r lp.constraints then (r, evaluateObjective r lp.objective)
        else repairScan lp bw
      else bw
    ⟨if lp.discrete then ((jsRound final.1.x : ℤ) : ℚ) else final.1.x,
     if lp.discrete then ((jsRound final.1.y : ℤ) : ℚ) else final.1.y,
     final.2, true, fh :: ft⟩

/-- Helper for the substring model: the pattern matches at the front of
the text. -/
def matchesFront : List Char → List Char → Bool
  | [], _ => true
  | _ :: _, [] => false
  | a :: as, b :: bs => a == b && matchesFront as bs

/-- Helper for the substring model: the pattern occurs contiguously
somewhere in the text. -/
def containsSub (pat : List Char) : List Char → Bool
  | [] => matchesFront pat []
  | c :: rest => matchesFront pat (c :: rest) || containsSub pat rest

/-- Model of the JavaScript String.includes builtin used by the parser:
substring occurrence. -/
def jsIncludes (s pat : String) : Bool :=
  containsSub pat.data s.data

/-- The hard-coded automobile-manufacturer linear program built by
parseLinearOptimizationProblem for the English template. -/
def autoLP : LinearProgram :=
  { objective := ⟨2400, 3600, ObjType.maximize⟩
    constraints :=
      [⟨1, 0, 600, ConstraintType.le⟩,
       ⟨0, 1, 300, ConstraintType.le⟩,
       ⟨1, 1, 750, ConstraintType.le⟩]
    varX := "Model A"
    varY := "Model B"
    discrete := true }

/-- The hard-coded tool-manufacturer linear program built by
parseLinearOptimizationProblem for the German template (0.6 is the
rational three fifths). -/
def toolLP : LinearProgram :=
  { objective := ⟨8, 5, ObjType.maximize⟩
    constraints :=
      [⟨5, 6, 4000, ConstraintType.le⟩,
       ⟨5, 3 / 5, 1500, ConstraintType.le⟩,
       ⟨0, 1, 550, ConstraintType.le⟩,
       ⟨1, 1, 800, ConstraintType.le⟩]
    varX := "Werkzeug C"
    varY := "Werkzeug D"
    discrete := true }

/-- The source parseLinearOptimizationProblem: two fixed phrase
signatures, tried in order; no match returns none. -/
def parseLinearOptimizationProblem (problemText : String) : Option LinearProgram :=
  if jsIncludes problemText "automobile manufacturer" &&
     jsIncludes problemText "Model A" &&
     jsIncludes problemText "Model B" then
    some autoLP
  else if jsIncludes problemText "Werkzeug" &&
     jsIncludes problemText "C" &&
     jsIncludes problemText "D" &&
     jsIncludes problemText "Arbeitsstunden" &&
     jsIncludes problemText "Materialkosten" then
    some toolLP
  else
    none

/-- Observer on the solver internals: the continuous optimum rounded to
the nearest integers passes the feasibility check (the condition guarding
the adopt-the-rounded-point branch of the discrete pass). -/
def roundedContFeasible (lp : LinearProgram) : Bool :=
  match feasibleCandidates lp with
  | [] => false
  | fh :: ft =>
    let bw := mainScan lp fh ft
    isFeasible ⟨((jsRound bw.1.x : ℤ) : ℚ), ((jsRound bw.1.y : ℤ) : ℚ)⟩ lp.constraints

/-- Spec-side predicate (from the claims): the pattern occurs contiguously
in the text. -/
def OccursIn (pat s : String) : Prop :=
  ∃ pre post : List Char, s.data = pre ++ pat.data ++ post

/-- Spec-side predicate: a constraint relation holds at a point within the
numeric tolerance, as worded in the claims. -/
def satisfiesWithin (c : Constraint) (x y : ℚ) : Prop :=
  match c.type with
  | ConstraintType.le => c.a * x + c.b * y ≤ c.c + tol
  | ConstraintType.ge => c.c - tol ≤ c.a * x + c.b * y
  | ConstraintType.eq => |c.a * x + c.b * y - c.c| ≤ tol

/-- Comparison in the direction of the objective: the second value is at
least as good as the first. -/
def objLE (ty : ObjType) (v w : ℚ) : Prop :=
  match ty with
  | ObjType.maximize => v ≤ w
  | ObjType.minimize => w ≤ v

/-- Concrete program: maximize x + y subject to x ≤ 1/2 and y ≤ 1/2 with
integral variables.  The continuous optimum (1/2, 1/2) rounds to the
infeasible point (1, 1) and the repair pass finds no strictly better
feasible integer point, so the solver returns the infeasible point (1, 1). -/
def lpHalf : LinearProgram :=
  { objective := ⟨1, 1, ObjType.maximize⟩
    constraints := [⟨1, 0, 1 / 2, ConstraintType.le⟩, ⟨0, 1, 1 / 2, ConstraintType.le⟩]
    varX := "x", varY := "y", discrete := true }

/-- Concrete program: maximize x subject to x ≤ 2/5 and y ≤ 5 with
integral variables.  The continuous optimum (2/5, 5) rounds to the
feasible point (0, 5), dropping the objective value from 2/5 to 0 even
though the vertex (2/5, 5) stays in the returned vertex list. -/
def lpRoundDrop : LinearProgram :=
  { objective := ⟨1, 0, ObjType.maximize⟩
    constraints := [⟨1, 0, 2 / 5, ConstraintType.le⟩, ⟨0, 1, 5, ConstraintType.le⟩]
    varX := "x", varY := "y", discrete := true }

/-- Concrete program: maximize x + y subject to x ≤ 1, y ≤ 1, x + y ≤ 1.
The optimum is tied between the vertices (1, 0) and (0, 1). -/
def lpTri1 : LinearProgram :=
  { objective := ⟨1, 1, ObjType.maximize⟩
    constraints :=
      [⟨1, 0, 1, ConstraintType.le⟩,
       ⟨0, 1, 1, ConstraintType.le⟩,
       ⟨1, 1, 1, ConstraintType.le⟩]
    varX := "x", varY := "y", discrete := false }

/-- The same program as lpTri1 with the first two constraints swapped. -/
def lpTri2 : LinearProgram :=
  { objective := ⟨1, 1, ObjType.maximize⟩
    constraints :=
      [⟨0, 1, 1, ConstraintType.le⟩,
       ⟨1, 0, 1, ConstraintType.le⟩,
       ⟨1, 1, 1, ConstraintType.le⟩]
    varX := "x", varY := "y", discrete := false }

/-- Concrete program with contradictory constraints x ≤ 5 and x ≥ 10. -/
def lpContra : LinearProgram :=
  { objective := ⟨1, 1, ObjType.maximize⟩
    constraints := [⟨1, 0, 5, ConstraintType.le⟩, ⟨1, 0, 10, ConstraintType.ge⟩]
    varX := "x", varY := "y", discrete := false }

/-- A problem text matching the English automobile template. -/
def autoText : String :=
  "An automobile manufacturer produces Model A and Model B cars"


lemma objLE_refl (ty : ObjType) (v : ℚ) : objLE ty v v := by
  cases ty <;> simp [objLE]

lemma objLE_trans {ty : ObjType} {u v w : ℚ} (h1 : objLE ty u v) (h2 : objLE ty v w) :
    objLE ty u w := by
  cases ty <;> simp only [objLE] at * <;> linarith

lemma objLE_antisymm {ty : ObjType} {v w : ℚ} (h1 : objLE ty v w) (h2 : objLE ty w v) :
    v = w := by
  cases ty <;> simp only [objLE] at * <;> linarith

lemma objBetter_false {ty : ObjType} {v w : ℚ} (h : objBetter ty v w = false) :
    objLE ty v w := by
  cases ty <;> simp only [objBetter, decide_eq_false_iff_not, not_lt] at h <;>
    simpa [objLE] using h

lemma objBetter_true {ty : ObjType} {v w : ℚ} (h : objBetter ty v w = true) :
    objLE ty w v ∧ w ≠ v := by
  cases ty <;> simp only [objBetter, decide_eq_true_eq] at h
  · exact ⟨le_of_lt h, ne_of_lt h⟩
  · exact ⟨le_of_lt h, ne_of_gt h⟩

lemma argScan_spec (ty : ObjType) (f : Point → ℚ) (adm : Point → Bool)
    (l : List Point) : ∀ (b₀ : Point) (v₀ : ℚ),
    objLE ty v₀ (argScan ty f adm (b₀, v₀) l).2 ∧
    (∀ p ∈ l, adm p = true → objLE ty (f p) (argScan ty f adm (b₀, v₀) l).2) ∧
    (argScan ty f adm (b₀, v₀) l = (b₀, v₀) ∨
      ((argScan ty f adm (b₀, v₀) l).1 ∈ l ∧
       adm (argScan ty f adm (b₀, v₀) l).1 = true ∧
       f (argScan ty f adm (b₀, v₀) l).1 = (argScan ty f adm (b₀, v₀) l).2 ∧
       (argScan ty f adm (b₀, v₀) l).2 ≠ v₀)) ∧
    ((argScan ty f adm (b₀, v₀) l).2 ≠ v₀ →
      l.find? (fun p => adm p && decide (f p = (argScan ty f adm (b₀, v₀) l).2)) =
        some (argScan ty f adm (b₀, v₀) l).1) := by
  induction l with
  | nil =>
    intro b₀ v₀
    simp [argScan, objLE_refl]
  | cons p rest ih =>
    intro b₀ v₀
    cases hc : adm p && objBetter ty (f p) v₀ with
    | true =>
      have hadm : adm p = true := (Bool.and_eq_true _ _).mp hc |>.1
      have hob : objBetter ty (f p) v₀ = true := (Bool.and_eq_true _ _).mp hc |>.2
      obtain ⟨hle0, hne0⟩ := objBetter_true hob
      have hR : argScan ty f adm (b₀, v₀) (p :: rest) = argScan ty f adm (p, f p) rest := by
        simp [argScan, hc]
      obtain ⟨ih1, ih2, ih3, ih4⟩ := ih p (f p)
      rw [hR]
      refine ⟨objLE_trans hle0 ih1, ?_, ?_, ?_⟩
      · intro q hq hadmq
        rcases List.mem_cons.mp hq with rfl | hq'
        · exact ih1
        · exact ih2 q hq' hadmq
      · rcases ih3 with h | ⟨h1, h2, h3, h4⟩
        · refine Or.inr ?_
          rw [h]
          exact ⟨List.mem_cons_self _ _, hadm, rfl, fun he => hne0 he.symm⟩
        · refine Or.inr ⟨List.mem_cons_of_mem _ h1, h2, h3, ?_⟩
          intro he
          exact hne0 (objLE_antisymm hle0 (he ▸ ih1))
      · intro _
        by_cases hfp : f p = (argScan ty f adm (p, f p) rest).2
        · rcases ih3 with h | ⟨_, _, _, h4⟩
          · rw [h]
            exact List.find?_cons_of_pos rest (by simp [hadm])
          · exact absurd hfp.symm h4
        · refine (List.find?_cons_of_neg rest ?_).trans (ih4 (fun he => hfp he.symm))
          simp [hfp]
    | false =>
      have hR : argScan ty f adm (b₀, v₀) (p :: rest) = argScan ty f adm (b₀, v₀) rest := by
        simp [argScan, hc]
      obtain ⟨ih1, ih2, ih3, ih4⟩ := ih b₀ v₀
      rw [hR]
      refine ⟨ih1, ?_, ?_, ?_⟩
      · intro q hq hadmq
        rcases List.mem_cons.mp hq with rfl | hq'
        · have hob : objBetter ty (f q) v₀ = false := by
            cases hob : objBetter ty (f q) v₀
            · rfl
            · rw [hadmq, hob] at hc; cases hc
          exact objLE_trans (objBetter_false hob) ih1
        · exact ih2 q hq' hadmq
      · rcases ih3 with h | ⟨h1, h2, h3, h4⟩
        · exact Or.inl h
        · exact Or.inr ⟨List.mem_cons_of_mem _ h1, h2, h3, h4⟩
      · intro hneq
        have hskip : ¬ (adm p && decide (f p = (argScan ty f adm (b₀, v₀) rest).2)) := by
          intro habs
          rcases (Bool.and_eq_true _ _).mp habs with ⟨ha, hd⟩
          have hob : objBetter ty (f p) v₀ = false := by
            cases hob : objBetter ty (f p) v₀
            · rfl
            · rw [ha, hob] at hc; cases hc
          have h1 : objLE ty (f p) v₀ := objBetter_false hob
          have h2 : f p = (argScan ty f adm (b₀, v₀) rest).2 := of_decide_eq_true hd
          exact hneq (objLE_antisymm (h2 ▸ h1) ih1)
        exact (List.find?_cons_of_neg rest hskip).trans (ih4 hneq)


lemma mainScan_le {lp : LinearProgram} {fh : Point} {ft : List Point} :
    ∀ p ∈ fh :: ft, objLE lp.objective.type (evaluateObjective p lp.objective)
      (mainScan lp fh ft).2 := by
  intro p hp
  exact (argScan_spec lp.objective.type (fun p => evaluateObjective p lp.objective)
    (fun _ => true) (fh :: ft) fh (evaluateObjective fh lp.objective)).2.1 p hp rfl

lemma mainScan_attained {lp : LinearProgram} {fh : Point} {ft : List Point} :
    ∃ b ∈ fh :: ft, evaluateObjective b lp.objective = (mainScan lp fh ft).2 := by
  unfold mainScan
  obtain ⟨-, -, h3, -⟩ := argScan_spec lp.objective.type
    (fun p => evaluateObjective p lp.objective) (fun _ => true) (fh :: ft) fh
    (evaluateObjective fh lp.objective)
  rcases h3 with h | ⟨h1, -, h3, -⟩
  · exact ⟨fh, List.mem_cons_self _ _, by rw [h]⟩
  · exact ⟨(mainScan lp fh ft).1, h1, h3⟩

lemma mainScan_mem {lp : LinearProgram} {fh : Point} {ft : List Point} :
    (mainScan lp fh ft).1 ∈ fh :: ft := by
  unfold mainScan
  obtain ⟨-, -, h3, -⟩ := argScan_spec lp.objective.type
    (fun p => evaluateObjective p lp.objective) (fun _ => true) (fh :: ft) fh
    (evaluateObjective fh lp.objective)
  rcases h3 with h | ⟨h1, -, -, -⟩
  · rw [h]; exact List.mem_cons_self _ _
  · exact h1

lemma mainScan_consistent {lp : LinearProgram} {fh : Point} {ft : List Point} :
    evaluateObjective (mainScan lp fh ft).1 lp.objective = (mainScan lp fh ft).2 := by
  unfold mainScan
  obtain ⟨-, -, h3, -⟩ := argScan_spec lp.objective.type
    (fun p => evaluateObjective p lp.objective) (fun _ => true) (fh :: ft) fh
    (evaluateObjective fh lp.objective)
  rcases h3 with h | ⟨-, -, h3, -⟩
  · rw [h]
  · exact h3

lemma solve_empty {lp : LinearProgram} (h : feasibleCandidates lp = []) :
    solveLinearOptimization lp = ⟨0, 0, 0, false, []⟩ := by
  unfold solveLinearOptimization
  rw [h]

lemma solve_cons {lp : LinearProgram} {fh : Point} {ft : List Point}
    (h : feasibleCandidates lp = fh :: ft) :
    solveLinearOptimization lp =
      (let bw := mainScan lp fh ft
      let final :=
        if lp.discrete then
          let r : Point := ⟨((jsRound bw.1.x : ℤ) : ℚ), ((jsRound bw.1.y : ℤ) : ℚ)⟩
          if isFeasible r lp.constraints then (r, evaluateObjective r lp.objective)
          else repairScan lp bw
        else bw
      ⟨if lp.discrete then ((jsRound final.1.x : ℤ) : ℚ) else final.1.x,
       if lp.discrete then ((jsRound final.1.y : ℤ) : ℚ) else final.1.y,
       final.2, true, fh :: ft⟩) := by
  unfold solveLinearOptimization
  rw [h]

lemma solve_nondiscrete {lp : LinearProgram} {fh : Point} {ft : List Point}
    (hd : lp.discrete = false) (h : feasibleCandidates lp = fh :: ft) :
    solveLinearOptimization lp =
      ⟨(mainScan lp fh ft).1.x, (mainScan lp fh ft).1.y,
       (mainScan lp fh ft).2, true, fh :: ft⟩ := by
  rw [solve_cons h]
  simp [hd]


lemma constraintCheck_iff (c : Constraint) (p : Point) :
    ((let v := c.a * p.x + c.b * p.y
      match c.type with
      | ConstraintType.le => decide (v ≤ c.c + tol)
      | ConstraintType.ge => decide (c.c - tol ≤ v)
      | ConstraintType.eq => decide (|v - c.c| ≤ tol)) = true) ↔
      satisfiesWithin c p.x p.y := by
  cases hct : c.type <;> simp [satisfiesWithin, hct]

lemma isFeasible_iff {p : Point} {cs : List Constraint} :
    isFeasible p cs = true ↔
      (∀ c ∈ cs, satisfiesWithin c p.x p.y) ∧ 0 ≤ p.x ∧ 0 ≤ p.y := by
  unfold isFeasible
  simp only [Bool.and_eq_true, List.all_eq_true, decide_eq_true_eq, and_assoc]
  constructor
  · rintro ⟨h1, h2, h3⟩
    exact ⟨fun c hc => (constraintCheck_iff c p).mp (h1 c hc), h2, h3⟩
  · rintro ⟨h1, h2, h3⟩
    exact ⟨fun c hc => (constraintCheck_iff c p).mpr (h1 c hc), h2, h3⟩

lemma findIntersection_comm (c d : Constraint) :
    findIntersection c d = findIntersection d c := by
  unfold findIntersection
  simp only
  rw [show d.a * c.b - d.b * c.a = -(c.a * d.b - c.b * d.a) by ring, abs_neg]
  by_cases h : |c.a * d.b - c.b * d.a| < tol
  · rw [if_pos h, if_pos h]
  · rw [if_neg h, if_neg h]
    have hx : (d.c * c.b - d.b * c.c) / -(c.a * d.b - c.b * d.a)
        = (c.c * d.b - c.b * d.c) / (c.a * d.b - c.b * d.a) := by
      rw [show d.c * c.b - d.b * c.c = -(c.c * d.b - c.b * d.c) by ring, neg_div_neg_eq]
    have hy : (d.a * c.c - d.c * c.a) / -(c.a * d.b - c.b * d.a)
        = (c.a * d.c - c.c * d.a) / (c.a * d.b - c.b * d.a) := by
      rw [show d.a * c.c - d.c * c.a = -(c.a * d.c - c.c * d.a) by ring, neg_div_neg_eq]
    rw [hx, hy]

lemma pairIntersections_perm {cs cs' : List Constraint} (h : cs.Perm cs') :
    (pairIntersections cs).Perm (pairIntersections cs') := by
  induction h with
  | nil => simp [pairIntersections]
  | cons x h ih =>
    simp only [pairIntersections]
    exact (h.filterMap _).append ih
  | swap x y l =>
    simp only [pairIntersections, List.filterMap_cons]
    rw [findIntersection_comm y x]
    have base : ((l.filterMap fun d => findIntersection y d) ++
          ((l.filterMap fun d => findIntersection x d) ++ pairIntersections l)).Perm
        ((l.filterMap fun d => findIntersection x d) ++
          ((l.filterMap fun d => findIntersection y d) ++ pairIntersections l)) := by
      rw [← List.append_assoc, ← List.append_assoc]
      exact List.perm_append_comm.append_right _
    cases hxy : findIntersection x y with
    | none => simpa using base
    | some pt => simpa using base.cons pt
  | trans h1 h2 ih1 ih2 => exact ih1.trans ih2

lemma isFeasible_perm {cs cs' : List Constraint} (h : cs.Perm cs') (p : Point) :
    isFeasible p cs = isFeasible p cs' := by
  unfold isFeasible
  have hall : ∀ g : Constraint → Bool, cs.all g = cs'.all g := by
    intro g
    rw [List.all_eq, List.all_eq]
    refine decide_eq_decide.mpr ?_
    constructor
    · intro hh c hcmem
      exact hh c (h.mem_iff.mpr hcmem)
    · intro hh c hcmem
      exact hh c (h.mem_iff.mp hcmem)
  rw [hall]

lemma feasibleCandidates_perm {lp : LinearProgram} {cs' : List Constraint}
    (h : lp.constraints.Perm cs') :
    (feasibleCandidates lp).Perm (feasibleCandidates {lp with constraints := cs'}) := by
  unfold feasibleCandidates candidateVertices
  simp only
  rw [List.filter_congr (fun v _ => isFeasible_perm h v)]
  exact ((pairIntersections_perm h).cons _).filter _


lemma objSup_unique {ty : ObjType} {f : Point → ℚ} {l l' : List Point}
    (hperm : l.Perm l') {v v' : ℚ}
    (hv1 : ∃ b ∈ l, f b = v) (hv2 : ∀ p ∈ l, objLE ty (f p) v)
    (hw1 : ∃ b ∈ l', f b = v') (hw2 : ∀ p ∈ l', objLE ty (f p) v') : v = v' := by
  obtain ⟨b, hb, hfb⟩ := hv1
  obtain ⟨b', hb', hfb'⟩ := hw1
  exact objLE_antisymm (hfb ▸ hw2 b (hperm.mem_iff.mp hb))
    (hfb' ▸ hv2 b' (hperm.mem_iff.mpr hb'))

lemma matchesFront_iff {pat s : List Char} :
    matchesFront pat s = true ↔ ∃ post, s = pat ++ post := by
  induction pat generalizing s with
  | nil => simp [matchesFront]
  | cons a as ih =>
    cases s with
    | nil => simp [matchesFront]
    | cons b bs =>
      simp only [matchesFront, Bool.and_eq_true, beq_iff_eq, ih, List.cons_append,
        List.cons.injEq]
      constructor
      · rintro ⟨rfl, post, rfl⟩
        exact ⟨post, rfl, rfl⟩
      · rintro ⟨post, rfl, rfl⟩
        exact ⟨rfl, post, rfl⟩

lemma containsSub_iff {pat s : List Char} :
    containsSub pat s = true ↔ ∃ pre post, s = pre ++ pat ++ post := by
  induction s with
  | nil =>
    simp only [containsSub, matchesFront_iff]
    constructor
    · rintro ⟨post, h⟩
      exact ⟨[], post, by simpa using h⟩
    · rintro ⟨pre, post, h⟩
      rcases List.append_eq_nil.mp h.symm with ⟨h1, rfl⟩
      rcases List.append_eq_nil.mp h1 with ⟨rfl, rfl⟩
      exact ⟨[], rfl⟩
  | cons c rest ih =>
    simp only [containsSub, Bool.or_eq_true, matchesFront_iff, ih]
    constructor
    · rintro (⟨post, h⟩ | ⟨pre, post, h⟩)
      · exact ⟨[], post, by simpa using h⟩
      · exact ⟨c :: pre, post, by simp [h]⟩
    · rintro ⟨pre, post, h⟩
      cases pre with
      | nil => exact Or.inl ⟨post, by simpa using h⟩
      | cons p pre' =>
        rw [List.cons_append, List.cons_append] at h
        injection h with h1 h2
        exact Or.inr ⟨pre', post, h2⟩

lemma jsIncludes_iff {s pat : String} :
    jsIncludes s pat = true ↔ OccursIn pat s := by
  unfold jsIncludes OccursIn
  exact containsSub_iff


set_option maxHeartbeats 2000000 in
lemma solveHalf : solveLinearOptimization lpHalf =
    ⟨1, 1, 1, true, [⟨0, 0⟩, ⟨1 / 2, 1 / 2⟩]⟩ := by
  norm_num [solveLinearOptimization, mainScan, repairScan, feasibleCandidates,
    candidateVertices, pairIntersections, findIntersection, isFeasible,
    evaluateObjective, tol, argScan, objBetter, neighborhoodPoints, deltas,
    jsRound, lpHalf, List.filterMap_cons, List.filter_cons, List.flatMap_cons,
    List.map_cons]

set_option maxHeartbeats 2000000 in
lemma solveRoundDrop : solveLinearOptimization lpRoundDrop =
    ⟨0, 5, 0, true, [⟨0, 0⟩, ⟨2 / 5, 5⟩]⟩ := by
  norm_num [solveLinearOptimization, mainScan, repairScan, feasibleCandidates,
    candidateVertices, pairIntersections, findIntersection, isFeasible,
    evaluateObjective, tol, argScan, objBetter, neighborhoodPoints, deltas,
    jsRound, lpRoundDrop, List.filterMap_cons, List.filter_cons, List.flatMap_cons,
    List.map_cons]

set_option maxHeartbeats 2000000 in
lemma fcTri1 : feasibleCandidates lpTri1 = [⟨0, 0⟩, ⟨1, 0⟩, ⟨0, 1⟩] := by
  norm_num [feasibleCandidates, candidateVertices, pairIntersections,
    findIntersection, isFeasible, tol, lpTri1, List.filterMap_cons, List.filter_cons]

set_option maxHeartbeats 2000000 in
lemma solveTri1 : solveLinearOptimization lpTri1 =
    ⟨1, 0, 1, true, [⟨0, 0⟩, ⟨1, 0⟩, ⟨0, 1⟩]⟩ := by
  norm_num [solveLinearOptimization, mainScan, feasibleCandidates,
    candidateVertices, pairIntersections, findIntersection, isFeasible,
    evaluateObjective, tol, argScan, objBetter, lpTri1, List.filterMap_cons,
    List.filter_cons]

set_option maxHeartbeats 2000000 in
lemma solveTri2 : solveLinearOptimization lpTri2 =
    ⟨0, 1, 1, true, [⟨0, 0⟩, ⟨0, 1⟩, ⟨1, 0⟩]⟩ := by
  norm_num [solveLinearOptimization, mainScan, feasibleCandidates,
    candidateVertices, pairIntersections, findIntersection, isFeasible,
    evaluateObjective, tol, argScan, objBetter, lpTri2, List.filterMap_cons,
    List.filter_cons]

set_option maxHeartbeats 1000000 in
lemma fcContra : feasibleCandidates lpContra = [] := by
  norm_num [feasibleCandidates, candidateVertices, pairIntersections,
    findIntersection, isFeasible, tol, lpContra, List.filterMap_cons, List.filter_cons]

set_option maxHeartbeats 4000000 in
lemma solveAuto : solveLinearOptimization autoLP =
    ⟨450, 300, 2160000, true, [⟨0, 0⟩, ⟨600, 150⟩, ⟨450, 300⟩]⟩ := by
  norm_num [solveLinearOptimization, mainScan, repairScan, feasibleCandidates,
    candidateVertices, pairIntersections, findIntersection, isFeasible,
    evaluateObjective, tol, argScan, objBetter, neighborhoodPoints, deltas,
    jsRound, autoLP, List.filterMap_cons, List.filter_cons, List.flatMap_cons,
    List.map_cons]

lemma parseAuto : parseLinearOptimizationProblem autoText = some autoLP := by
  unfold parseLinearOptimizationProblem
  rw [if_pos]
  decide


lemma jsRound_intCast (m : ℤ) : jsRound ((m : ℤ) : ℚ) = m := by
  unfold jsRound
  rw [Int.floor_int_add]
  norm_num

lemma objBetter_self (ty : ObjType) (v : ℚ) : objBetter ty v v = false := by
  cases ty <;> simp [objBetter]

lemma solve_discrete_roundOK {lp : LinearProgram} {fh : Point} {ft : List Point}
    (hd : lp.discrete = true) (hfc : feasibleCandidates lp = fh :: ft)
    (hr : isFeasible ⟨((jsRound (mainScan lp fh ft).1.x : ℤ) : ℚ),
            ((jsRound (mainScan lp fh ft).1.y : ℤ) : ℚ)⟩ lp.constraints = true) :
    solveLinearOptimization lp =
      ⟨((jsRound (mainScan lp fh ft).1.x : ℤ) : ℚ),
       ((jsRound (mainScan lp fh ft).1.y : ℤ) : ℚ),
       evaluateObjective ⟨((jsRound (mainScan lp fh ft).1.x : ℤ) : ℚ),
         ((jsRound (mainScan lp fh ft).1.y : ℤ) : ℚ)⟩ lp.objective,
       true, fh :: ft⟩ := by
  rw [solve_cons hfc]
  simp only [hd, if_true, hr, jsRound_intCast]

lemma solve_discrete_repair {lp : LinearProgram} {fh : Point} {ft : List Point}
    (hd : lp.discrete = true) (hfc : feasibleCandidates lp = fh :: ft)
    (hr : isFeasible ⟨((jsRound (mainScan lp fh ft).1.x : ℤ) : ℚ),
            ((jsRound (mainScan lp fh ft).1.y : ℤ) : ℚ)⟩ lp.constraints = false) :
    solveLinearOptimization lp =
      ⟨((jsRound (repairScan lp (mainScan lp fh ft)).1.x : ℤ) : ℚ),
       ((jsRound (repairScan lp (mainScan lp fh ft)).1.y : ℤ) : ℚ),
       (repairScan lp (mainScan lp fh ft)).2, true, fh :: ft⟩ := by
  rw [solve_cons hfc]
  simp only [hd, if_true, hr, Bool.false_eq_true, if_false]

lemma roundedContFeasible_cons {lp : LinearProgram} {fh : Point} {ft : List Point}
    (hfc : feasibleCandidates lp = fh :: ft) :
    roundedContFeasible lp =
      isFeasible ⟨((jsRound (mainScan lp fh ft).1.x : ℤ) : ℚ),
        ((jsRound (mainScan lp fh ft).1.y : ℤ) : ℚ)⟩ lp.constraints := by
  unfold roundedContFeasible
  rw [hfc]

lemma roundedContFeasible_nil {lp : LinearProgram}
    (hfc : feasibleCandidates lp = []) : roundedContFeasible lp = false := by
  unfold roundedContFeasible
  rw [hfc]


lemma jsRound_zero : jsRound 0 = 0 := by
  norm_num [jsRound]

/-- C1 (counterexample): on the discrete program lpHalf the solver returns
a feasible-flagged solution whose point (1, 1) violates the constraint
x ≤ 1/2 beyond any tolerance, refuting the claim for discrete programs. -/
theorem C1_counterexample :
    (solveLinearOptimization lpHalf).feasible = true ∧
    (⟨1, 0, 1 / 2, ConstraintType.le⟩ : Constraint) ∈ lpHalf.constraints ∧
    ¬ satisfiesWithin ⟨1, 0, 1 / 2, ConstraintType.le⟩
        (solveLinearOptimization lpHalf).x (solveLinearOptimization lpHalf).y := by
  rw [solveHalf]
  refine ⟨rfl, by simp [lpHalf], ?_⟩
  norm_num [satisfiesWithin, tol]

/-- C1 (amended): for every non-discrete program, a feasible-flagged
solution satisfies every constraint within the 1e-10 tolerance and has
non-negative coordinates. -/
theorem C1_feasible_solution_sound (lp : LinearProgram) (hd : lp.discrete = false)
    (hf : (solveLinearOptimization lp).feasible = true) :
    (∀ c ∈ lp.constraints,
      satisfiesWithin c (solveLinearOptimization lp).x (solveLinearOptimization lp).y) ∧
    0 ≤ (solveLinearOptimization lp).x ∧ 0 ≤ (solveLinearOptimization lp).y := by
  cases hfc : feasibleCandidates lp with
  | nil =>
    rw [solve_empty hfc] at hf
    cases hf
  | cons fh ft =>
    rw [solve_nondiscrete hd hfc]
    have hmem : (mainScan lp fh ft).1 ∈ feasibleCandidates lp := by
      rw [hfc]; exact mainScan_mem
    have hfeas : isFeasible (mainScan lp fh ft).1 lp.constraints = true := by
      unfold feasibleCandidates at hmem
      exact (List.mem_filter.mp hmem).2
    obtain ⟨h1, h2, h3⟩ := isFeasible_iff.mp hfeas
    exact ⟨h1, h2, h3⟩

/-- C1 (witness): the amended soundness theorem evaluated on the concrete
non-discrete program lpTri1. -/
theorem C1_witness :
    (∀ c ∈ lpTri1.constraints,
      satisfiesWithin c (solveLinearOptimization lpTri1).x (solveLinearOptimization lpTri1).y) ∧
    0 ≤ (solveLinearOptimization lpTri1).x ∧ 0 ≤ (solveLinearOptimization lpTri1).y :=
  C1_feasible_solution_sound lpTri1 rfl (by rw [solveTri1])

/-- C2 (counterexample): on the discrete program lpRoundDrop the rounding
pass drops the objective value to 0 while the returned vertex list still
holds the vertex (2/5, 5) of objective value 2/5, refuting the claim for
discrete programs. -/
theorem C2_counterexample :
    lpRoundDrop.objective.type = ObjType.maximize ∧
    (⟨2 / 5, 5⟩ : Point) ∈ (solveLinearOptimization lpRoundDrop).vertices ∧
    (solveLinearOptimization lpRoundDrop).objectiveValue <
      lpRoundDrop.objective.a * (2 / 5) + lpRoundDrop.objective.b * 5 := by
  rw [solveRoundDrop]
  refine ⟨rfl, by simp, ?_⟩
  norm_num [lpRoundDrop]

/-- C2 (amended): for every non-discrete program the returned objective
value is at least as good (in the direction of the objective) as the
objective value of every vertex in the returned vertex list. -/
theorem C2_vertex_optimality (lp : LinearProgram) (hd : lp.discrete = false) :
    ∀ v ∈ (solveLinearOptimization lp).vertices,
      objLE lp.objective.type (evaluateObjective v lp.objective)
        (solveLinearOptimization lp).objectiveValue := by
  cases hfc : feasibleCandidates lp with
  | nil =>
    rw [solve_empty hfc]
    intro v hv
    cases hv
  | cons fh ft =>
    rw [solve_nondiscrete hd hfc]
    intro v hv
    exact mainScan_le v hv

/-- C2 (witness): the amended optimality theorem evaluated on the concrete
non-discrete program lpTri1 at its tied vertex (0, 1). -/
theorem C2_witness :
    objLE lpTri1.objective.type (evaluateObjective ⟨0, 1⟩ lpTri1.objective)
      (solveLinearOptimization lpTri1).objectiveValue :=
  C2_vertex_optimality lpTri1 rfl ⟨0, 1⟩ (by rw [solveTri1]; simp)

/-- C4: the solver signals infeasibility exactly by the normal return value
with x = 0, y = 0, objective value 0, feasible = false and an empty vertex
list, and this happens precisely when no candidate vertex is feasible; the
embedding is a total function, so no exception is ever thrown. -/
theorem C4_infeasible_is_return_value (lp : LinearProgram) :
    ((solveLinearOptimization lp).feasible = false ↔ feasibleCandidates lp = []) ∧
    (feasibleCandidates lp = [] → solveLinearOptimization lp = ⟨0, 0, 0, false, []⟩) := by
  cases hfc : feasibleCandidates lp with
  | nil =>
    refine ⟨⟨fun _ => rfl, fun _ => ?_⟩, fun _ => solve_empty hfc⟩
    rw [solve_empty hfc]
  | cons fh ft =>
    refine ⟨⟨fun hf => ?_, fun h => ?_⟩, fun h => ?_⟩
    · rw [solve_cons hfc] at hf
      simp at hf
    · simp at h
    · simp at h

/-- C4 (witness): on the contradictory program lpContra (x ≤ 5 and x ≥ 10)
no candidate vertex is feasible and the solver returns the infeasibility
record. -/
theorem C4_witness :
    feasibleCandidates lpContra = [] ∧
    solveLinearOptimization lpContra = ⟨0, 0, 0, false, []⟩ :=
  ⟨fcContra, (C4_infeasible_is_return_value lpContra).2 fcContra⟩

/-- C5: the automobile-manufacturer text parses to the hard-coded program,
and the solver returns x = 450, y = 300, objective value 2160000 and
feasible = true on it. -/
theorem C5_automobile_scenario :
    parseLinearOptimizationProblem autoText = some autoLP ∧
    (solveLinearOptimization autoLP).x = 450 ∧
    (solveLinearOptimization autoLP).y = 300 ∧
    (solveLinearOptimization autoLP).objectiveValue = 2160000 ∧
    (solveLinearOptimization autoLP).feasible = true := by
  refine ⟨parseAuto, ?_, ?_, ?_, ?_⟩ <;> rw [solveAuto]

/-- C6: on a program with an empty constraint list, for every objective,
variable naming and discrete flag, the solver returns x = 0, y = 0,
objective value 0 and feasible = true. -/
theorem C6_empty_constraints (obj : Objective) (vx vy : String) (d : Bool) :
    (solveLinearOptimization ⟨obj, [], vx, vy, d⟩).x = 0 ∧
    (solveLinearOptimization ⟨obj, [], vx, vy, d⟩).y = 0 ∧
    (solveLinearOptimization ⟨obj, [], vx, vy, d⟩).objectiveValue = 0 ∧
    (solveLinearOptimization ⟨obj, [], vx, vy, d⟩).feasible = true := by
  have hfc : feasibleCandidates ⟨obj, [], vx, vy, d⟩ = [⟨0, 0⟩] := by
    simp [feasibleCandidates, candidateVertices, pairIntersections, isFeasible]
  have hms : mainScan ⟨obj, [], vx, vy, d⟩ ⟨0, 0⟩ [] = (⟨0, 0⟩, 0) := by
    unfold mainScan
    simp [argScan, evaluateObjective, objBetter_self]
  cases d with
  | false =>
    rw [solve_nondiscrete rfl hfc]
    simp [hms]
  | true =>
    rw [solve_discrete_roundOK rfl hfc (by simp [hms, jsRound_zero, isFeasible])]
    simp [hms, jsRound_zero, evaluateObjective]

/-- C10 (counterexample): on the discrete program lpHalf the returned
objective value 1 does not match the objective evaluated at the returned
point (1, 1), which is 2. -/
theorem C10_counterexample :
    (solveLinearOptimization lpHalf).objectiveValue ≠
      lpHalf.objective.a * (solveLinearOptimization lpHalf).x +
      lpHalf.objective.b * (solveLinearOptimization lpHalf).y := by
  rw [solveHalf]
  norm_num [lpHalf]

/-- C10 (amended): the returned objective value equals the objective
evaluated at the returned coordinates in the non-discrete case, in the
infeasible case, and in the discrete case whenever the rounded continuous
optimum passes the feasibility check; the discrete neighborhood-repair
branch that adopts no point is the only exception. -/
theorem C10_value_consistency (lp : LinearProgram) :
    (lp.discrete = false →
      (solveLinearOptimization lp).objectiveValue =
        lp.objective.a * (solveLinearOptimization lp).x +
        lp.objective.b * (solveLinearOptimization lp).y) ∧
    ((solveLinearOptimization lp).feasible = false →
      (solveLinearOptimization lp).objectiveValue =
        lp.objective.a * (solveLinearOptimization lp).x +
        lp.objective.b * (solveLinearOptimization lp).y) ∧
    (lp.discrete = true → roundedContFeasible lp = true →
      (solveLinearOptimization lp).objectiveValue =
        lp.objective.a * (solveLinearOptimization lp).x +
        lp.objective.b * (solveLinearOptimization lp).y) := by
  refine ⟨?_, ?_, ?_⟩
  · intro hd
    cases hfc : feasibleCandidates lp with
    | nil =>
      rw [solve_empty hfc]
      simp
    | cons fh ft =>
      rw [solve_nondiscrete hd hfc]
      simpa [evaluateObjective] using mainScan_consistent.symm
  · intro hf
    cases hfc : feasibleCandidates lp with
    | nil =>
      rw [solve_empty hfc]
      simp
    | cons fh ft =>
      rw [solve_cons hfc] at hf
      simp at hf
  · intro hd hrc
    cases hfc : feasibleCandidates lp with
    | nil =>
      rw [roundedContFeasible_nil hfc] at hrc
      cases hrc
    | cons fh ft =>
      rw [roundedContFeasible_cons hfc] at hrc
      rw [solve_discrete_roundOK hd hfc hrc]
      simp [evaluateObjective]

/-- C10 (witness): value consistency evaluated on the concrete non-discrete
program lpTri1. -/
theorem C10_witness :
    (solveLinearOptimization lpTri1).objectiveValue =
      lpTri1.objective.a * (solveLinearOptimization lpTri1).x +
      lpTri1.objective.b * (solveLinearOptimization lpTri1).y :=
  (C10_value_consistency lpTri1).1 rfl


/-- C3 (counterexample): on the discrete program lpHalf the solver reports
feasible = true yet the returned point fails the feasibility check of the
original constraints. -/
theorem C3_counterexample :
    lpHalf.discrete = true ∧
    (solveLinearOptimization lpHalf).feasible = true ∧
    isFeasible ⟨(solveLinearOptimization lpHalf).x, (solveLinearOptimization lpHalf).y⟩
      lpHalf.constraints = false := by
  rw [solveHalf]
  refine ⟨rfl, rfl, ?_⟩
  norm_num [isFeasible, lpHalf, tol, List.all_cons]

/-- C3 (amended): for every discrete program the returned coordinates are
integers; the returned point is moreover feasible whenever the rounded
continuous optimum passes the feasibility check, but not in general. -/
theorem C3_discrete_integrality (lp : LinearProgram) (hd : lp.discrete = true) :
    (∃ m : ℤ, (solveLinearOptimization lp).x = (m : ℚ)) ∧
    (∃ n : ℤ, (solveLinearOptimization lp).y = (n : ℚ)) ∧
    (roundedContFeasible lp = true →
      isFeasible ⟨(solveLinearOptimization lp).x, (solveLinearOptimization lp).y⟩
        lp.constraints = true) := by
  cases hfc : feasibleCandidates lp with
  | nil =>
    rw [solve_empty hfc]
    refine ⟨⟨0, by norm_num⟩, ⟨0, by norm_num⟩, fun hrc => ?_⟩
    rw [roundedContFeasible_nil hfc] at hrc
    cases hrc
  | cons fh ft =>
    cases hb : isFeasible ⟨((jsRound (mainScan lp fh ft).1.x : ℤ) : ℚ),
        ((jsRound (mainScan lp fh ft).1.y : ℤ) : ℚ)⟩ lp.constraints with
    | true =>
      rw [solve_discrete_roundOK hd hfc hb]
      exact ⟨⟨_, rfl⟩, ⟨_, rfl⟩, fun _ => hb⟩
    | false =>
      rw [solve_discrete_repair hd hfc hb]
      refine ⟨⟨_, rfl⟩, ⟨_, rfl⟩, fun hrc => ?_⟩
      rw [roundedContFeasible_cons hfc, hb] at hrc
      cases hrc

/-- C3 (witness): integrality and conditional feasibility evaluated on the
concrete discrete program lpRoundDrop, where the rounded optimum (0, 5) is
feasible. -/
theorem C3_witness :
    (∃ m : ℤ, (solveLinearOptimization lpRoundDrop).x = (m : ℚ)) ∧
    (∃ n : ℤ, (solveLinearOptimization lpRoundDrop).y = (n : ℚ)) ∧
    (roundedContFeasible lpRoundDrop = true →
      isFeasible ⟨(solveLinearOptimization lpRoundDrop).x,
        (solveLinearOptimization lpRoundDrop).y⟩ lpRoundDrop.constraints = true) :=
  C3_discrete_integrality lpRoundDrop rfl

/-- C7: the parser is a closed enumeration of the two templates from the
claim: the automobile signature maps to the hard-coded automobile program,
otherwise the tool signature maps to the hard-coded tool program, and any
other text maps to none. -/
theorem C7_parser_closed_enumeration (t : String) :
    autoLP = ⟨⟨2400, 3600, ObjType.maximize⟩,
      [⟨1, 0, 600, ConstraintType.le⟩, ⟨0, 1, 300, ConstraintType.le⟩,
       ⟨1, 1, 750, ConstraintType.le⟩], "Model A", "Model B", true⟩ ∧
    toolLP = ⟨⟨8, 5, ObjType.maximize⟩,
      [⟨5, 6, 4000, ConstraintType.le⟩, ⟨5, 3 / 5, 1500, ConstraintType.le⟩,
       ⟨0, 1, 550, ConstraintType.le⟩, ⟨1, 1, 800, ConstraintType.le⟩],
      "Werkzeug C", "Werkzeug D", true⟩ ∧
    ((OccursIn "automobile manufacturer" t ∧ OccursIn "Model A" t ∧
        OccursIn "Model B" t) →
      parseLinearOptimizationProblem t = some autoLP) ∧
    (¬ (OccursIn "automobile manufacturer" t ∧ OccursIn "Model A" t ∧
        OccursIn "Model B" t) →
      (OccursIn "Werkzeug" t ∧ OccursIn "C" t ∧ OccursIn "D" t ∧
        OccursIn "Arbeitsstunden" t ∧ OccursIn "Materialkosten" t) →
      parseLinearOptimizationProblem t = some toolLP) ∧
    (¬ (OccursIn "automobile manufacturer" t ∧ OccursIn "Model A" t ∧
        OccursIn "Model B" t) →
      ¬ (OccursIn "Werkzeug" t ∧ OccursIn "C" t ∧ OccursIn "D" t ∧
        OccursIn "Arbeitsstunden" t ∧ OccursIn "Materialkosten" t) →
      parseLinearOptimizationProblem t = none) := by
  have hA : (jsIncludes t "automobile manufacturer" && jsIncludes t "Model A" &&
      jsIncludes t "Model B") = true ↔
      (OccursIn "automobile manufacturer" t ∧ OccursIn "Model A" t ∧
        OccursIn "Model B" t) := by
    simp [Bool.and_eq_true, jsIncludes_iff, and_assoc]
  have hB : (jsIncludes t "Werkzeug" && jsIncludes t "C" && jsIncludes t "D" &&
      jsIncludes t "Arbeitsstunden" && jsIncludes t "Materialkosten") = true ↔
      (OccursIn "Werkzeug" t ∧ OccursIn "C" t ∧ OccursIn "D" t ∧
        OccursIn "Arbeitsstunden" t ∧ OccursIn "Materialkosten" t) := by
    simp [Bool.and_eq_true, jsIncludes_iff, and_assoc]
  refine ⟨rfl, rfl, ?_, ?_, ?_⟩
  · intro h
    unfold parseLinearOptimizationProblem
    rw [if_pos (hA.mpr h)]
  · intro hnot h
    unfold parseLinearOptimizationProblem
    rw [if_neg (fun hab => hnot (hA.mp hab)), if_pos (hB.mpr h)]
  · intro hnot1 hnot2
    unfold parseLinearOptimizationProblem
    rw [if_neg (fun hab => hnot1 (hA.mp hab)), if_neg (fun hab => hnot2 (hB.mp hab))]

/-- C7 (witness): the automobile branch of the enumeration evaluated on
the concrete matching text. -/
theorem C7_witness : parseLinearOptimizationProblem autoText = some autoLP :=
  (C7_parser_closed_enumeration autoText).2.2.1
    ⟨⟨"An ".data, " produces Model A and Model B cars".data, by decide⟩,
     ⟨"An automobile manufacturer produces ".data, " and Model B cars".data, by decide⟩,
     ⟨"An automobile manufacturer produces Model A and ".data, " cars".data, by decide⟩⟩

/-- C8 (counterexample): swapping the first two constraints of lpTri1
(a permutation) changes the returned x coordinate from 1 to 0 because the
optimum is tied between two vertices, refuting order-independence of the
returned solution fields. -/
theorem C8_counterexample :
    lpTri1.objective = lpTri2.objective ∧
    lpTri1.discrete = lpTri2.discrete ∧
    lpTri1.constraints.Perm lpTri2.constraints ∧
    (solveLinearOptimization lpTri1).x ≠ (solveLinearOptimization lpTri2).x := by
  refine ⟨rfl, rfl, List.Perm.swap _ _ _, ?_⟩
  rw [solveTri1, solveTri2]
  norm_num

/-- C8 (amended): under any permutation of the constraint list the
feasible flag is unchanged, and for non-discrete programs the returned
objective value is unchanged as well; the returned coordinates may differ
when the optimum is tied. -/
theorem C8_permutation_invariance (lp : LinearProgram) (cs' : List Constraint)
    (hperm : lp.constraints.Perm cs') :
    (solveLinearOptimization lp).feasible =
      (solveLinearOptimization {lp with constraints := cs'}).feasible ∧
    (lp.discrete = false →
      (solveLinearOptimization lp).objectiveValue =
        (solveLinearOptimization {lp with constraints := cs'}).objectiveValue) := by
  have hfcp := feasibleCandidates_perm hperm
  cases hfc : feasibleCandidates lp with
  | nil =>
    have hfc' : feasibleCandidates {lp with constraints := cs'} = [] := by
      rw [hfc] at hfcp
      exact hfcp.symm.eq_nil
    rw [solve_empty hfc, solve_empty hfc']
    exact ⟨rfl, fun _ => rfl⟩
  | cons fh ft =>
    cases hfc' : feasibleCandidates {lp with constraints := cs'} with
    | nil =>
      rw [hfc, hfc'] at hfcp
      have := hfcp.length_eq
      simp at this
    | cons gh gt =>
      have hperm2 : (fh :: ft).Perm (gh :: gt) := by
        rw [← hfc, ← hfc']
        exact hfcp
      constructor
      · simp [solve_cons hfc, solve_cons hfc']
      · intro hd
        have hd' : ({lp with constraints := cs'} : LinearProgram).discrete = false := hd
        rw [solve_nondiscrete hd hfc, solve_nondiscrete hd' hfc']
        exact objSup_unique hperm2 mainScan_attained mainScan_le
          mainScan_attained mainScan_le

/-- C8 (witness): the amended invariance applied to lpTri1 and the swapped
constraint list of lpTri2. -/
theorem C8_witness :
    (solveLinearOptimization lpTri1).feasible =
      (solveLinearOptimization {lpTri1 with constraints := lpTri2.constraints}).feasible ∧
    (lpTri1.discrete = false →
      (solveLinearOptimization lpTri1).objectiveValue =
        (solveLinearOptimization
          {lpTri1 with constraints := lpTri2.constraints}).objectiveValue) :=
  C8_permutation_invariance lpTri1 lpTri2.constraints (List.Perm.swap _ _ _)

/-- C9: tie-breaking keeps the first-encountered optimum.  For non-discrete
programs the returned point is the first vertex in candidate order whose
objective value equals the returned objective value; and in the discrete
neighborhood repair, either no point is adopted, or the adopted point is
the first feasible neighborhood point (in dx-outer dy-inner scan order)
attaining the final value. -/
theorem C9_tie_break_first_found (lp : LinearProgram) (fh : Point) (ft : List Point)
    (hd : lp.discrete = false) (hfc : feasibleCandidates lp = fh :: ft) :
    (List.find? (fun p => decide (evaluateObjective p lp.objective =
        (solveLinearOptimization lp).objectiveValue))
        (solveLinearOptimization lp).vertices =
      some ⟨(solveLinearOptimization lp).x, (solveLinearOptimization lp).y⟩) ∧
    (∀ bw : Point × ℚ,
      repairScan lp bw = bw ∨
      ((repairScan lp bw).2 ≠ bw.2 ∧
        List.find? (fun p => isFeasible p lp.constraints &&
            decide (evaluateObjective p lp.objective = (repairScan lp bw).2))
          (neighborhoodPoints bw.1) = some (repairScan lp bw).1)) := by
  constructor
  · rw [solve_nondiscrete hd hfc]
    simp only
    obtain ⟨-, -, h3, h4⟩ := argScan_spec lp.objective.type
      (fun p => evaluateObjective p lp.objective) (fun _ => true) (fh :: ft) fh
      (evaluateObjective fh lp.objective)
    by_cases hne : (mainScan lp fh ft).2 = evaluateObjective fh lp.objective
    · rcases h3 with h | ⟨-, -, -, hne2⟩
      · rw [show mainScan lp fh ft = (fh, evaluateObjective fh lp.objective) from h]
        exact List.find?_cons_of_pos ft (by simp)
      · exact absurd hne hne2
    · have h4' := h4 hne
      simp only [Bool.true_and] at h4'
      exact h4'
  · intro bw
    obtain ⟨-, -, h3, h4⟩ := argScan_spec lp.objective.type
      (fun p => evaluateObjective p lp.objective) (fun p => isFeasible p lp.constraints)
      (neighborhoodPoints bw.1) bw.1 bw.2
    unfold repairScan
    rcases h3 with h | ⟨-, -, -, hne⟩
    · exact Or.inl h
    · exact Or.inr ⟨hne, h4 hne⟩

/-- C9 (witness): the tie-break characterization evaluated on the concrete
tied program lpTri1, whose feasible candidate list is the origin followed
by the two tied vertices. -/
theorem C9_witness :
    (List.find? (fun p => decide (evaluateObjective p lpTri1.objective =
        (solveLinearOptimization lpTri1).objectiveValue))
        (solveLinearOptimization lpTri1).vertices =
      some ⟨(solveLinearOptimization lpTri1).x, (solveLinearOptimization lpTri1).y⟩) ∧
    (∀ bw : Point × ℚ,
      repairScan lpTri1 bw = bw ∨
      ((repairScan lpTri1 bw).2 ≠ bw.2 ∧
        List.find? (fun p => isFeasible p lpTri1.constraints &&
            decide (evaluateObjective p lpTri1.objective = (repairScan lpTri1 bw).2))
          (neighborhoodPoints bw.1) = some (repairScan lpTri1 bw).1)) :=
  C9_tie_break_first_found lpTri1 ⟨0, 0⟩ [⟨1, 0⟩, ⟨0, 1⟩] rfl fcTri1

end LinOpt
